import Mathlib

/-!
Verification of the advance-report bot core: the chronological ledger
(`add_operation`, `get_balance`, `_update_monthly_summary` in
`bot/sheets_client.py`), the operation wizard FSM (`bot/fsm.py`,
message/callback branches of `bot/handlers.py`), input validation
(`bot/utils.py`) and the rental obligation tracker
(`bot/rental_models.py`, rental functions of `bot/sheets_client.py`).
Sheets are modelled as lists of data rows (the header row is dropped and
row/cell access is by named field); numeric values are rationals.
-/

namespace AvansBot

set_option maxRecDepth 100000

/-! ### Python-style primitive string parsing -/

def isDigitChar (c : Char) : Bool := 48 ≤ c.toNat && c.toNat ≤ 57

def digitVal (c : Char) : Nat := c.toNat - 48

/-- Numeric value of a digit string. -/
def digitsVal (cs : List Char) : Nat := cs.foldl (fun n c => n * 10 + digitVal c) 0

/-- Python `int(s)`: an optional sign followed by a nonempty digit string.
(Surrounding whitespace and underscore grouping accepted by CPython are not
modelled; no cell relevant to a claim uses them.) -/
def pyInt (s : String) : Option Int :=
  match s.toList with
  | [] => none
  | '-' :: cs =>
      if cs ≠ [] && cs.all isDigitChar then some (-(digitsVal cs : Int)) else none
  | '+' :: cs =>
      if cs ≠ [] && cs.all isDigitChar then some (digitsVal cs : Int) else none
  | cs =>
      if cs.all isDigitChar then some (digitsVal cs : Int) else none

/-- Mantissa of a Python float literal: digits with at most one decimal point,
at least one digit overall (`"12"`, `"12."`, `".5"`, `"12.5"`). -/
def pyFloatMantissa (cs : List Char) : Option ℚ :=
  match cs.splitOnP (fun c => c == '.') with
  | [ip] =>
      if ip ≠ [] && ip.all isDigitChar then some (digitsVal ip : ℚ) else none
  | [ip, fp] =>
      if (ip ≠ [] || fp ≠ []) && ip.all isDigitChar && fp.all isDigitChar then
        some ((digitsVal ip : ℚ) + (digitsVal fp : ℚ) / (10 : ℚ) ^ fp.length)
      else none
  | _ => none

/-- Python `float(s)` on finite decimal input: optional sign, mantissa,
optional exponent. (`"inf"`, `"nan"`, whitespace and underscore grouping are
not modelled: the claims are about finite amounts.) -/
def pyFloat (s : String) : Option ℚ :=
  let (sgn, body) :=
    match s.toList with
    | '-' :: cs => ((-1 : ℚ), cs)
    | '+' :: cs => ((1 : ℚ), cs)
    | cs => ((1 : ℚ), cs)
  match body.splitOnP (fun c => c == 'e' || c == 'E') with
  | [m] => (pyFloatMantissa m).map (fun v => sgn * v)
  | [m, e] =>
      match pyFloatMantissa m, pyInt (String.mk e) with
      | some v, some ev => some (sgn * v * (10 : ℚ) ^ ev)
      | _, _ => none
  | _ => none

/-- Characters removed by Python `str.strip()` (whitespace, including the
non-breaking space). -/
def isPySpace (c : Char) : Bool :=
  c == ' ' || c == '\t' || c == '\n' || c == '\r' || c == '\x0b' || c == '\x0c' ||
    c == '\xa0'

/-- Python `s.strip()`. -/
def pyStrip (s : String) : String :=
  String.mk (((s.toList.dropWhile isPySpace).reverse.dropWhile isPySpace).reverse)

/-- Python `s.split(sep)` for a single-character separator, on character
lists; empty segments are kept and the empty string yields one empty
segment. -/
def splitOnCharList (c : Char) : List Char → List (List Char)
  | [] => [[]]
  | x :: xs =>
      match splitOnCharList c xs with
      | [] => [[]]
      | h :: t => if x = c then [] :: h :: t else (x :: h) :: t

/-- Python `s.split('.')`. -/
def splitDots (s : String) : List String :=
  (splitOnCharList '.' s.toList).map String.mk

/-- Python `s.replace(a, b)` for a single-character pattern `a` (the only
shape the source uses): every occurrence of `a` becomes the characters `b`. -/
def replaceChar (a : Char) (b : List Char) (s : String) : String :=
  String.mk (s.toList.flatMap (fun c => if c = a then b else [c]))

/-- Python `s.upper()` (the flags compared to `"TRUE"` are ASCII). -/
def pyUpper (s : String) : String := String.mk (s.toList.map Char.toUpper)

/-! ### Ledger dates

`add_operation` and `get_balance` parse a date cell with
`day, month, year = map(int, s.split('.'))` and compare the tuples
`(year, month, day)`; no calendar validity check is made there. -/

/-- A date tuple `(year, month, day)` as compared by the ledger code. -/
structure PyDate where
  y : Int
  m : Int
  d : Int
deriving DecidableEq, Repr

/-- `map(int, s.split('.'))` unpacked into day, month, year; any other shape
raises ValueError in the source and yields `none` here. -/
def parseDateTriple (s : String) : Option PyDate :=
  match splitDots s with
  | [ds, ms, ys] =>
      match pyInt ds, pyInt ms, pyInt ys with
      | some d, some m, some y => some ⟨y, m, d⟩
      | _, _, _ => none
  | _ => none

/-- Python tuple comparison `(y₁,m₁,d₁) ≤ (y₂,m₂,d₂)` (lexicographic). -/
def pyDateLe (a b : PyDate) : Prop :=
  a.y < b.y ∨ (a.y = b.y ∧ (a.m < b.m ∨ (a.m = b.m ∧ a.d ≤ b.d)))

instance (a b : PyDate) : Decidable (pyDateLe a b) := by
  unfold pyDateLe; exact inferInstance

theorem pyDateLe_total (a b : PyDate) : pyDateLe a b ∨ pyDateLe b a := by
  unfold pyDateLe; omega

theorem pyDateLe_trans {a b c : PyDate} (h₁ : pyDateLe a b) (h₂ : pyDateLe b c) :
    pyDateLe a c := by
  unfold pyDateLe at *; omega

/-! ### The operation wizard FSM (`bot/fsm.py`)

The Python class keeps per-user dictionaries of state and context; every claim
is about one user's slice, modelled as a `Machine`. Each `set_*` method
mutates the user's context and state; here it returns the new machine. -/

inductive State where
  | IDLE
  | SELECT_OPERATION_TYPE
  | SELECT_DATE
  | INPUT_AMOUNT
  | SELECT_CATEGORY
  | SELECT_TYPE
  | SELECT_RENTAL_ADDRESS
  | SELECT_RENTAL_MM
  | INPUT_RENTAL_AMOUNT
  | INPUT_DESCRIPTION
  | CONFIRM
  | SAVE
deriving DecidableEq, Repr

/-- `OperationContext`: the accumulating fields of an in-progress entry. -/
structure OperationContext where
  direction : Option String := none
  date : Option String := none
  amount : Option ℚ := none
  category : Option String := none
  type : Option String := none
  description : Option String := none
  rental_address : Option String := none
  rental_mm : Option String := none
deriving DecidableEq, Repr

/-- One user's slice of the FSM: current state plus context. -/
structure Machine where
  state : State
  ctx : OperationContext
deriving DecidableEq, Repr

/-- The reserved rental-income category label. -/
def rentalLabel : String := "Доходы от аренды"

def start_operation (_m : Machine) : Machine := ⟨.SELECT_OPERATION_TYPE, {}⟩

def reset (_m : Machine) : Machine := ⟨.IDLE, {}⟩

def set_direction (m : Machine) (d : String) : Machine :=
  ⟨.SELECT_DATE, { m.ctx with direction := some d }⟩

def set_date (m : Machine) (d : String) : Machine :=
  ⟨.INPUT_AMOUNT, { m.ctx with date := some d }⟩

def set_amount (m : Machine) (a : ℚ) : Machine :=
  ⟨.SELECT_CATEGORY, { m.ctx with amount := some a }⟩

def set_category (m : Machine) (c : String) : Machine :=
  ⟨if c = rentalLabel then .SELECT_RENTAL_ADDRESS else .SELECT_TYPE,
   { m.ctx with category := some c }⟩

def set_type (m : Machine) (t : String) : Machine :=
  ⟨.INPUT_DESCRIPTION, { m.ctx with type := some t }⟩

def set_description (m : Machine) (d : String) : Machine :=
  ⟨.CONFIRM, { m.ctx with description := some d }⟩

def skip_description (m : Machine) : Machine :=
  ⟨.CONFIRM, { m.ctx with description := some "" }⟩

def confirm (m : Machine) : Machine := ⟨.SAVE, m.ctx⟩

def set_rental_address (m : Machine) (a : String) : Machine :=
  ⟨.SELECT_RENTAL_MM, { m.ctx with rental_address := some a }⟩

def set_rental_mm (m : Machine) (mm : String) : Machine :=
  ⟨if m.ctx.category = some rentalLabel then .INPUT_DESCRIPTION
   else .INPUT_RENTAL_AMOUNT,
   { m.ctx with rental_mm := some mm }⟩

def set_rental_amount (m : Machine) (a : ℚ) : Machine :=
  ⟨.CONFIRM, { m.ctx with amount := some a }⟩

/-- `go_back`: each state has one predecessor; moving back clears the field
recorded for the current state. The Bool is the method's return value. -/
def go_back (m : Machine) : Bool × Machine :=
  match m.state with
  | .SELECT_OPERATION_TYPE => (false, m)
  | .SELECT_DATE =>
      (true, ⟨.SELECT_OPERATION_TYPE, { m.ctx with direction := none }⟩)
  | .INPUT_AMOUNT =>
      (true, ⟨.SELECT_DATE, { m.ctx with date := none }⟩)
  | .SELECT_CATEGORY =>
      (true, ⟨.INPUT_AMOUNT, { m.ctx with amount := none }⟩)
  | .SELECT_TYPE =>
      (true, ⟨.SELECT_CATEGORY, { m.ctx with category := none }⟩)
  | .INPUT_DESCRIPTION =>
      (true, ⟨.SELECT_TYPE, { m.ctx with type := none }⟩)
  | .CONFIRM =>
      (true, ⟨.INPUT_DESCRIPTION, { m.ctx with description := none }⟩)
  | .SELECT_RENTAL_ADDRESS =>
      (true, ⟨.SELECT_CATEGORY, { m.ctx with category := none }⟩)
  | .SELECT_RENTAL_MM =>
      (true, ⟨.SELECT_RENTAL_ADDRESS, { m.ctx with rental_address := none }⟩)
  | .INPUT_RENTAL_AMOUNT =>
      (true, ⟨.SELECT_RENTAL_MM, { m.ctx with rental_mm := none }⟩)
  | _ => (false, m)

/-! ### Amount validation (`bot/utils.py`) and the rental-amount message branch -/

/-- `validate_amount`: spaces removed, decimal comma converted to a period,
parsed as a number; a non-positive value is rejected. Returns the accepted
value, `none` on rejection. -/
def validate_amount (s : String) : Option ℚ :=
  match pyFloat (replaceChar ',' ['.'] (replaceChar ' ' [] s)) with
  | none => none
  | some a => if a ≤ 0 then none else some a

/-- The `State.INPUT_RENTAL_AMOUNT` branch of `message_handler`
(`bot/handlers.py` lines 921-935): a pre-filled amount short-circuits to
CONFIRM and the typed text is ignored; otherwise the text is validated and
committed via `set_rental_amount`, or the machine is left unchanged. -/
def message_rental_amount (m : Machine) (text : String) : Machine :=
  match m.ctx.amount with
  | some _ => ⟨.CONFIRM, m.ctx⟩
  | none =>
      match validate_amount text with
      | some a => set_rental_amount m a
      | none => m

/-! ### Finalization (`get_operation_data` in `bot/fsm.py`, post-processing in
`save_operation` of `bot/handlers.py`) -/

/-- Python truthiness of an optional string (`None` and `""` are falsy). -/
def truthy (o : Option String) : Bool :=
  match o with
  | none => false
  | some s => !(s == "")

/-- Python `o or dflt` on an optional string. -/
def pyOrStr (o : Option String) (dflt : String) : String :=
  match o with
  | some s => if s = "" then dflt else s
  | none => dflt

/-- The operation dict built by `get_operation_data` and consumed by
`add_operation`; `address`/`mm_number` are present only when the rental
fields were truthy. -/
structure OpData where
  date : String
  direction : String
  amount : ℚ
  category : String
  type : String
  description : String
  address : Option String := none
  mm_number : Option String := none
deriving DecidableEq, Repr

/-- `get_operation_data`: `direction`, `date` and a non-`None` `amount` are
required (`not all([...])` returns `None`); for a rental context the category
defaults through `or` to the rental label and an unset or empty type to
`"<address> <mm>"`; otherwise unset category/type default to `""`. -/
def get_operation_data (ctx : OperationContext) : Option OpData :=
  match ctx.amount with
  | none => none
  | some a =>
    if truthy ctx.direction && truthy ctx.date then
      let isRental := truthy ctx.rental_address && truthy ctx.rental_mm
      let addrMm := (ctx.rental_address.getD "") ++ " " ++ (ctx.rental_mm.getD "")
      let category :=
        if isRental then pyOrStr ctx.category rentalLabel else pyOrStr ctx.category ""
      let typeName :=
        if isRental then
          match ctx.type with
          | some t => if t = "" then addrMm else t
          | none => addrMm
        else ctx.type.getD ""
      some { date := ctx.date.getD "", direction := ctx.direction.getD "",
             amount := a, category := category, type := typeName,
             description := pyOrStr ctx.description "",
             address := if truthy ctx.rental_address then ctx.rental_address else none,
             mm_number := if truthy ctx.rental_mm then ctx.rental_mm else none }
    else none

/-- The fix-up `save_operation` applies to the built dict before committing
(`bot/handlers.py` lines 456-464): for a rental payment, a missing or
mismatched category is overwritten with the rental label and a falsy type
with `"<address> <mm>"`. -/
def save_operation_data (ctx : OperationContext) : Option OpData :=
  match get_operation_data ctx with
  | none => none
  | some od =>
    if truthy ctx.rental_address && truthy ctx.rental_mm then
      let od₁ :=
        if od.category = "" ∨ od.category ≠ rentalLabel then
          { od with category := rentalLabel }
        else od
      let od₂ :=
        if od₁.type = "" then
          { od₁ with
            type := (ctx.rental_address.getD "") ++ " " ++ (ctx.rental_mm.getD "") }
        else od₁
      some od₂
    else some od

/-! ### The account ledger (`add_operation`, `get_balance`) -/

/-- One data row of an account sheet (the header row is excluded; columns are
the ones `add_operation` writes: date, income, expense, category, type,
description, running balance, address, М/М). -/
structure SheetRow where
  dateCell : String
  incomeCell : String
  expenseCell : String
  categoryCell : String := ""
  typeCell : String := ""
  descriptionCell : String := ""
  balanceCell : String := ""
  addressCell : String := ""
  mmCell : String := ""
deriving DecidableEq, Repr

/-- Sheet-side text of a numeric amount written into a cell. No claim
inspects this text; it only travels with the inserted row. -/
def renderAmount (q : ℚ) : String := toString q

/-- The `row_data` list built by `add_operation`: the amount goes to the
income column for direction `"IN"`, to the expense column otherwise. -/
def mkOperationRow (od : OpData) : SheetRow :=
  if od.direction = "IN" then
    ⟨od.date, renderAmount od.amount, "", od.category, od.type, od.description,
      "", od.address.getD "", od.mm_number.getD ""⟩
  else
    ⟨od.date, "", renderAmount od.amount, od.category, od.type, od.description,
      "", od.address.getD "", od.mm_number.getD ""⟩

/-- The insertion scan of `add_operation` (`sheets_client.py` lines 210-223).
Sheet row numbers are 2-based (row 1 is the header); `i` is the loop index and
`acc` the running `insert_row`. A row whose date cell is empty or does not
parse is skipped; a row whose date is ≤ the new date moves `insert_row` past
it; the first parsable row with a later date stops the scan. -/
def insertRowLoop (opDate : PyDate) : List SheetRow → Nat → Nat → Nat
  | [], _, acc => acc
  | row :: rest, i, acc =>
    match parseDateTriple row.dateCell with
    | none => insertRowLoop opDate rest (i + 1) acc
    | some rowDate =>
        if pyDateLe rowDate opDate then insertRowLoop opDate rest (i + 1) (i + 1)
        else acc

/-- The same scan, reformulated as the 0-based index into the data rows at
which the new row is inserted (`insertRowLoop ... 2 2 - 2`, see
`insertRowLoop_eq_findInsertIdx`). -/
def findInsertIdx (opDate : PyDate) : List SheetRow → Nat
  | [] => 0
  | row :: rest =>
    match parseDateTriple row.dateCell with
    | none =>
        match findInsertIdx opDate rest with
        | 0 => 0
        | k + 1 => k + 2
    | some rowDate =>
        if pyDateLe rowDate opDate then findInsertIdx opDate rest + 1 else 0

/-- `add_operation` restricted to the account's data rows: parse the new
entry's date (an unparsable date raises ValueError and the method returns
failure before touching the sheet), compute the insertion row, insert. -/
def add_operation (rows : List SheetRow) (od : OpData) : Option (List SheetRow) :=
  match parseDateTriple od.date with
  | none => none
  | some opDate =>
      some (rows.insertIdx (insertRowLoop opDate rows 2 2 - 2) (mkOperationRow od))

/-- A numeric cell as read by `get_balance`: stripped; an empty result is 0;
otherwise non-breaking spaces and spaces are removed and a comma becomes a
period; a parse failure contributes 0 and the computation continues. -/
def cellValue (s : String) : ℚ :=
  let t := pyStrip s
  if t = "" then 0
  else
    match pyFloat (replaceChar ',' ['.'] (replaceChar ' ' [] (replaceChar '\xa0' [] t))) with
    | some v => v
    | none => 0

/-- One record of the `operations` list built by `get_balance`. -/
structure BalanceOp where
  date : PyDate
  income : ℚ
  expense : ℚ
deriving DecidableEq, Repr

/-- The records `get_balance` collects: one per row whose stripped date cell
parses; rows with unparsable dates are skipped. -/
def balanceOps (rows : List SheetRow) : List BalanceOp :=
  rows.filterMap fun r =>
    match parseDateTriple (pyStrip r.dateCell) with
    | some d => some ⟨d, cellValue r.incomeCell, cellValue r.expenseCell⟩
    | none => none

/-- `get_balance`: collect, sort chronologically (Python's stable sort on the
date key, modelled by insertion sort), then accumulate income − expense. -/
def get_balance (rows : List SheetRow) : ℚ :=
  let ops := (balanceOps rows).insertionSort (fun a b => pyDateLe a.date b.date)
  ops.foldl (fun b op => b + op.income - op.expense) 0

/-! ### The monthly summary (`_update_monthly_summary`) -/

/-- One data row of the monthly summary sheet: account, month `MM.YYYY`, and
the income / expense / net cells. Cells are modelled at parsed numeric level,
`none` standing for an empty cell (the source reads them through
`float(cell.value or 0)`). -/
structure SummaryRow where
  name : String
  month : String
  income : Option ℚ := none
  expense : Option ℚ := none
  net : Option ℚ := none
deriving DecidableEq, Repr

/-- `f"{month:02d}.{year}"` for a parsed entry date. -/
def monthKey (d : PyDate) : String :=
  (if d.m < 10 ∧ 0 ≤ d.m then "0" ++ toString d.m else toString d.m) ++ "." ++
    toString d.y

/-- The row update of `_update_monthly_summary` (`sheets_client.py` lines
399-435) once the month string is known. In the existing-row branch for
direction `"IN"` the source computes `net = new_income - new_expense`, but
`new_expense` is assigned only in the `"OUT"` branch: Python raises
UnboundLocalError, the surrounding `except Exception` swallows it, and the
method returns with the income cell already written and the net cell
untouched. The model reproduces exactly that effect. -/
def updateSummaryRows (rows : List SummaryRow) (employee month_str direction : String)
    (amount : ℚ) : List SummaryRow :=
  match rows.findIdx? (fun r => r.name == employee && r.month == month_str) with
  | some i =>
      match rows[i]? with
      | some row =>
          let current_income := row.income.getD 0
          let current_expense := row.expense.getD 0
          if direction = "IN" then
            rows.set i { row with income := some (current_income + amount) }
          else
            let new_expense := current_expense + amount
            rows.set i { row with expense := some new_expense,
                                  net := some (current_income - new_expense) }
      | none => rows
  | none =>
      let income : ℚ := if direction = "IN" then amount else 0
      let expense : ℚ := if direction = "OUT" then amount else 0
      rows ++ [⟨employee, month_str, some income, some expense, some (income - expense)⟩]

/-- `_update_monthly_summary`: parse the entry's date for its month (a parse
failure is swallowed and leaves the sheet unchanged), then update the row for
`(employee, month)`. -/
def update_monthly_summary (rows : List SummaryRow) (employee : String)
    (od : OpData) : List SummaryRow :=
  match parseDateTriple od.date with
  | some d => updateSummaryRows rows employee (monthKey d) od.direction od.amount
  | none => rows

/-! ### Rental obligations (`bot/rental_models.py`, rental functions of
`bot/sheets_client.py`) -/

/-- A valid calendar date as produced by `datetime(year, month, day)`. -/
structure CalDate where
  year : Nat
  month : Nat
  day : Nat
deriving DecidableEq, Repr

def isLeap (y : Nat) : Bool := (y % 4 == 0 && y % 100 != 0) || y % 400 == 0

def daysInMonth (y m : Nat) : Nat :=
  if m = 2 then (if isLeap y then 29 else 28)
  else if m = 4 ∨ m = 6 ∨ m = 9 ∨ m = 11 then 30
  else 31

/-- `parse_rental_date`: strip, split on `'.'` into three ints, add 2000 to a
two-digit year, then `datetime` validity (month, day in range,
1 ≤ year ≤ 9999). Returns `none` when parsing fails. -/
def parse_rental_date (date_str : String) : Option CalDate :=
  let t := pyStrip date_str
  if t = "" then none
  else
    match splitDots t with
    | [ds, ms, ys] =>
        match pyInt ds, pyInt ms, pyInt ys with
        | some d, some m, some y =>
            let y := if y < 100 then y + 2000 else y
            if 1 ≤ y ∧ y ≤ 9999 ∧ 1 ≤ m ∧ m ≤ 12 ∧ 1 ≤ d ∧
                d ≤ (daysInMonth y.toNat m.toNat : Int) then
              some ⟨y.toNat, m.toNat, d.toNat⟩
            else none
        | _, _, _ => none
    | _ => none

/-- The day after a valid calendar date. -/
def nextDay (d : CalDate) : CalDate :=
  if d.day < daysInMonth d.year d.month then ⟨d.year, d.month, d.day + 1⟩
  else if d.month < 12 then ⟨d.year, d.month + 1, 1⟩
  else ⟨d.year + 1, 1, 1⟩

/-- `date + timedelta(days = n)`. -/
def addDays (d : CalDate) : Nat → CalDate
  | 0 => d
  | n + 1 => nextDay (addDays d n)

def pad2 (n : Nat) : String := if n < 10 then "0" ++ toString n else toString n

def pad4 (n : Nat) : String :=
  if n < 10 then "000" ++ toString n
  else if n < 100 then "00" ++ toString n
  else if n < 1000 then "0" ++ toString n
  else toString n

/-- `format_rental_date` = `strftime("%d.%m.%Y")`. -/
def format_rental_date (d : CalDate) : String :=
  pad2 d.day ++ "." ++ pad2 d.month ++ "." ++ pad4 d.year

/-- `add_days_to_date`: parse the date string; on failure fall back to the
current processing time `now`; add the days; format. -/
def add_days_to_date (date_str : String) (days : Nat) (now : CalDate) : String :=
  match parse_rental_date date_str with
  | some d => format_rental_date (addDays d days)
  | none => format_rental_date (addDays now days)

/-- One data row of the rental reference sheet (`Справочник М/М`), columns
A..G: legal entity, address, М/М, next payment date, payment amount,
responsible employee, paid-this-month flag. -/
structure RentalRow where
  legalCell : String
  addressCell : String
  mmCell : String
  nextDateCell : String
  amountCell : String
  responsibleCell : String
  paidCell : String := ""
deriving DecidableEq, Repr

/-- `update_rental_payment_date`: compute the new date (+30 days from the
payment date) before scanning, then write it into the date column of the
first row matching the address and М/М; `false` when no row matches. `now` is
the processing time used only when the payment date fails to parse. -/
def update_rental_payment_date (table : List RentalRow)
    (address mm_number payment_date : String) (now : CalDate) :
    Bool × List RentalRow :=
  let new_date := add_days_to_date payment_date 30 now
  match table.findIdx?
      (fun r => pyStrip r.addressCell == address && pyStrip r.mmCell == mm_number) with
  | some i =>
      match table[i]? with
      | some row => (true, table.set i { row with nextDateCell := new_date })
      | none => (false, table)
  | none => (false, table)

/-- The `RentalObject` dataclass. -/
structure RentalObject where
  legal_entity : String
  address : String
  mm_number : String
  next_payment_date : Option String
  payment_amount : Option ℚ
  responsible : String
  paid_this_month : Option Bool
  row_index : Nat
deriving DecidableEq, Repr

/-- Cleaning applied to an amount cell before `float()`. -/
def cleanAmount (s : String) : String :=
  replaceChar ',' ['.'] (replaceChar ' ' [] (replaceChar '\xa0' [] s))

/-- The filtering loop of `get_rental_objects_for_employee`: keep rows whose
stripped responsible cell equals the employee and whose stripped date cell is
nonempty; `i` is the 2-based sheet row index recorded in the object. -/
def buildRentalObjects (employee : String) : List RentalRow → Nat → List RentalObject
  | [], _ => []
  | r :: rest, i =>
      let address := pyStrip r.addressCell
      let nextDateStr := pyStrip r.nextDateCell
      let amountStr := pyStrip r.amountCell
      let responsible := pyStrip r.responsibleCell
      let paidStr := pyStrip r.paidCell
      if responsible ≠ employee then buildRentalObjects employee rest (i + 1)
      else if nextDateStr = "" then buildRentalObjects employee rest (i + 1)
      else
        { legal_entity := pyStrip r.legalCell, address := address,
          mm_number := pyStrip r.mmCell, next_payment_date := some nextDateStr,
          payment_amount := if amountStr ≠ "" then pyFloat (cleanAmount amountStr) else none,
          responsible := responsible,
          paid_this_month := if paidStr ≠ "" then some (pyUpper paidStr == "TRUE") else none,
          row_index := i } :: buildRentalObjects employee rest (i + 1)

/-- Lexicographic order on calendar dates (how Python compares datetimes of
one kind). -/
def calLe (a b : CalDate) : Prop :=
  a.year < b.year ∨ (a.year = b.year ∧
    (a.month < b.month ∨ (a.month = b.month ∧ a.day ≤ b.day)))

instance (a b : CalDate) : Decidable (calLe a b) := by
  unfold calLe; exact inferInstance

/-- The sort key of one object: its parsed due date, `datetime.max`
(31.12.9999, naive) when the date does not parse. -/
def rentalSortKey (o : RentalObject) : CalDate :=
  (parse_rental_date (o.next_payment_date.getD "")).getD ⟨9999, 12, 31⟩

/-- `get_rental_objects_for_employee`. The sort key is a timezone-aware
datetime for a parsable due date but the naive `datetime.max` otherwise;
Python raises TypeError on any aware/naive comparison, `except Exception`
catches it and the method returns `[]`. The sort therefore only completes
when the kept due dates are all parsable or all unparsable; with both kinds
present (hence at least two objects) the whole result collapses to `[]`. -/
def get_rental_objects_for_employee (table : List RentalRow) (employee : String) :
    List RentalObject :=
  let objs := buildRentalObjects employee table 2
  if (objs.any fun o => (parse_rental_date (o.next_payment_date.getD "")).isSome) &&
      (objs.any fun o => (parse_rental_date (o.next_payment_date.getD "")).isNone) then
    []
  else
    objs.insertionSort (fun a b => calLe (rentalSortKey a) (rentalSortKey b))

/-! ### Reachability through the wizard's operations

The handlers call `fsm.set_amount` / `fsm.set_rental_amount` only with a value
just accepted by `validate_amount` (`handlers.py` lines 910-916 and 929-935);
runs whose amounts all passed validation are captured by this predicate. -/

/-- Machines reachable through the wizard's operations when every amount
handed to an amount-setting operation was accepted by `validate_amount`. -/
inductive Reachable : Machine → Prop where
  | idle : Reachable ⟨.IDLE, {}⟩
  | startStep (m) : Reachable m → Reachable (start_operation m)
  | resetStep (m) : Reachable m → Reachable (reset m)
  | directionStep (m d) : Reachable m → Reachable (set_direction m d)
  | dateStep (m d) : Reachable m → Reachable (set_date m d)
  | amountStep (m s a) : Reachable m → validate_amount s = some a →
      Reachable (set_amount m a)
  | categoryStep (m c) : Reachable m → Reachable (set_category m c)
  | typeStep (m t) : Reachable m → Reachable (set_type m t)
  | descriptionStep (m d) : Reachable m → Reachable (set_description m d)
  | skipStep (m) : Reachable m → Reachable (skip_description m)
  | confirmStep (m) : Reachable m → Reachable (confirm m)
  | rentalAddressStep (m a) : Reachable m → Reachable (set_rental_address m a)
  | rentalMmStep (m mm) : Reachable m → Reachable (set_rental_mm m mm)
  | rentalAmountStep (m s a) : Reachable m → validate_amount s = some a →
      Reachable (set_rental_amount m a)
  | backStep (m) : Reachable m → Reachable (go_back m).2
  | messageStep (m s) : Reachable m → Reachable (message_rental_amount m s)

/-! ## Claim theorems -/

/-- C5, counterexample: the claim asserts the goBack round-trip for every
forward edge, "including the InputObligationAmount-to-Confirm edge set by the
rental amount". On that edge the code disagrees: after `set_rental_amount`
moves INPUT_RENTAL_AMOUNT → CONFIRM, `go_back` lands in INPUT_DESCRIPTION
(clearing `description`, which was never set) and leaves `amount` set, so
neither the state nor the context is restored. -/
theorem go_back_rental_amount_edge_fails :
    (go_back (set_rental_amount
        ⟨.INPUT_RENTAL_AMOUNT,
          { direction := some "IN", date := some "05.01.2026",
            rental_address := some "Main St", rental_mm := some "12" }⟩ 100)).2.state
        = .INPUT_DESCRIPTION ∧
    State.INPUT_DESCRIPTION ≠ State.INPUT_RENTAL_AMOUNT ∧
    (go_back (set_rental_amount
        ⟨.INPUT_RENTAL_AMOUNT,
          { direction := some "IN", date := some "05.01.2026",
            rental_address := some "Main St", rental_mm := some "12" }⟩ 100)).2.ctx
      ≠ { direction := some "IN", date := some "05.01.2026",
          rental_address := some "Main St", rental_mm := some "12" } := by
  refine ⟨rfl, by decide, ?_⟩
  intro h
  have := congrArg OperationContext.amount h
  simp [go_back, set_rental_amount] at this

/-- C5 (amended): `go_back` composed with a forward transition returns to the
source state and clears exactly the field the forward step set — for every
forward edge except the three whose target state's single `go_back`
predecessor differs from the edge's source: the category-first
SELECT_RENTAL_MM → INPUT_DESCRIPTION edge, the INPUT_RENTAL_AMOUNT → CONFIRM
edge, and the CONFIRM → SAVE edge (from SAVE, `go_back` signals failure and
does not move). When the cleared field was unset before the forward step,
clearing it restores the context exactly. -/
theorem go_back_round_trip (c : OperationContext)
    (d dt cat t txt addr mm : String) (q : ℚ) :
    go_back (set_direction ⟨.SELECT_OPERATION_TYPE, c⟩ d) =
      (true, ⟨.SELECT_OPERATION_TYPE, { c with direction := none }⟩) ∧
    go_back (set_date ⟨.SELECT_DATE, c⟩ dt) =
      (true, ⟨.SELECT_DATE, { c with date := none }⟩) ∧
    go_back (set_amount ⟨.INPUT_AMOUNT, c⟩ q) =
      (true, ⟨.INPUT_AMOUNT, { c with amount := none }⟩) ∧
    go_back (set_category ⟨.SELECT_CATEGORY, c⟩ cat) =
      (true, ⟨.SELECT_CATEGORY, { c with category := none }⟩) ∧
    go_back (set_type ⟨.SELECT_TYPE, c⟩ t) =
      (true, ⟨.SELECT_TYPE, { c with type := none }⟩) ∧
    go_back (set_description ⟨.INPUT_DESCRIPTION, c⟩ txt) =
      (true, ⟨.INPUT_DESCRIPTION, { c with description := none }⟩) ∧
    go_back (skip_description ⟨.INPUT_DESCRIPTION, c⟩) =
      (true, ⟨.INPUT_DESCRIPTION, { c with description := none }⟩) ∧
    go_back (set_rental_address ⟨.SELECT_RENTAL_ADDRESS, c⟩ addr) =
      (true, ⟨.SELECT_RENTAL_ADDRESS, { c with rental_address := none }⟩) ∧
    go_back (set_rental_mm ⟨.SELECT_RENTAL_MM, c⟩ mm) =
      (if c.category = some rentalLabel then
        (true, ⟨.SELECT_TYPE, { c with rental_mm := some mm, type := none }⟩)
      else
        (true, ⟨.SELECT_RENTAL_MM, { c with rental_mm := none }⟩)) ∧
    go_back (set_rental_amount ⟨.INPUT_RENTAL_AMOUNT, c⟩ q) =
      (true, ⟨.INPUT_DESCRIPTION, { c with amount := some q, description := none }⟩) ∧
    go_back (confirm ⟨.CONFIRM, c⟩) = (false, ⟨.SAVE, c⟩) := by
  refine ⟨rfl, rfl, rfl, ?_, rfl, rfl, rfl, rfl, ?_, rfl, rfl⟩
  · by_cases h : cat = rentalLabel <;> simp [set_category, go_back, h]
  · by_cases h : c.category = some rentalLabel <;> simp [set_rental_mm, go_back, h]

/-- C8, counterexample: the claim says the transition out of
SELECT_RENTAL_MM depends only on whether `category` is set, moving to
INPUT_DESCRIPTION whenever it is. With `category = some "Прочее"` (set, but
not the rental label) the code moves to INPUT_RENTAL_AMOUNT instead: the
branch tests equality with the rental-income label, not presence. -/
theorem set_rental_mm_set_category_not_description :
    (set_rental_mm
        ⟨.SELECT_RENTAL_MM, { category := some "Прочее" }⟩ "12").state
      = .INPUT_RENTAL_AMOUNT ∧
    (some "Прочее" : Option String) ≠ none ∧
    State.INPUT_RENTAL_AMOUNT ≠ State.INPUT_DESCRIPTION := by
  refine ⟨?_, by decide, by decide⟩
  simp [set_rental_mm, rentalLabel]

/-- C8 (amended): on selecting a unit in SELECT_RENTAL_MM the wizard moves to
INPUT_DESCRIPTION exactly when `category` equals the reserved rental-income
label, and to INPUT_RENTAL_AMOUNT otherwise (unset, or set to any other
value); in both cases the only context change is setting `rental_mm`. -/
theorem set_rental_mm_branches_on_label (c : OperationContext) (mm : String) :
    ((set_rental_mm ⟨.SELECT_RENTAL_MM, c⟩ mm).state = .INPUT_DESCRIPTION ↔
      c.category = some rentalLabel) ∧
    ((set_rental_mm ⟨.SELECT_RENTAL_MM, c⟩ mm).state = .INPUT_RENTAL_AMOUNT ↔
      c.category ≠ some rentalLabel) ∧
    (set_rental_mm ⟨.SELECT_RENTAL_MM, c⟩ mm).ctx = { c with rental_mm := some mm } := by
  by_cases h : c.category = some rentalLabel <;> simp [set_rental_mm, h]

/-- C10: if the standard amount was auto-filled into the context (so
`ctx.amount` is set) then, whatever text the user sends in
INPUT_RENTAL_AMOUNT, the text is ignored without validation: the amount keeps
its value, the context is untouched, and the wizard advances to CONFIRM. -/
theorem message_rental_amount_short_circuit (m : Machine) (text : String) (a : ℚ)
    (h : m.ctx.amount = some a) :
    message_rental_amount m text = ⟨.CONFIRM, m.ctx⟩ ∧
    (message_rental_amount m text).ctx.amount = some a := by
  refine ⟨?_, ?_⟩ <;> simp [message_rental_amount, h]

/-- C10 witness: a machine with the auto-filled amount 15000 receiving the
text "-3" advances to CONFIRM with the amount unchanged. -/
theorem message_rental_amount_short_circuit_witness :
    message_rental_amount
        ⟨.INPUT_RENTAL_AMOUNT,
          { direction := some "IN", date := some "05.01.2026",
            amount := some 15000, rental_address := some "Main St",
            rental_mm := some "12" }⟩ "-3"
      = ⟨.CONFIRM,
          { direction := some "IN", date := some "05.01.2026",
            amount := some 15000, rental_address := some "Main St",
            rental_mm := some "12" }⟩ ∧
    (message_rental_amount
        ⟨.INPUT_RENTAL_AMOUNT,
          { direction := some "IN", date := some "05.01.2026",
            amount := some 15000, rental_address := some "Main St",
            rental_mm := some "12" }⟩ "-3").ctx.amount = some 15000 :=
  message_rental_amount_short_circuit _ "-3" 15000 rfl

/-- Every value accepted by `validate_amount` is strictly positive (the
source rejects `amount <= 0` after parsing). -/
theorem validate_amount_pos (s : String) (a : ℚ) (h : validate_amount s = some a) :
    0 < a := by
  unfold validate_amount at h
  rcases hp : pyFloat (replaceChar ',' ['.'] (replaceChar ' ' [] s)) with _ | v <;>
    rw [hp] at h
  · exact absurd h (by simp)
  · by_cases hle : v ≤ 0
    · simp [hle] at h
    · simp [hle] at h
      rw [← h]
      exact lt_of_not_le hle

/-- C9: for every input string accepted by amount validation the stored value
is positive, and in every machine reachable through the wizard's operations
with validated amounts, the `amount` field is strictly positive whenever it
is set. -/
theorem amount_invariant_positive :
    (∀ s a, validate_amount s = some a → 0 < a) ∧
    (∀ m, Reachable m → ∀ a, m.ctx.amount = some a → 0 < a) := by
  refine ⟨validate_amount_pos, ?_⟩
  intro m hm
  induction hm with
  | idle => intro a h; exact absurd h (by simp)
  | startStep m _ _ => intro a h; exact absurd h (by simp [start_operation])
  | resetStep m _ _ => intro a h; exact absurd h (by simp [reset])
  | directionStep m d _ ih => exact ih
  | dateStep m d _ ih => exact ih
  | amountStep m s a₀ _ hv _ =>
      intro a h
      simp [set_amount] at h
      exact h ▸ validate_amount_pos s a₀ hv
  | categoryStep m c _ ih => exact ih
  | typeStep m t _ ih => exact ih
  | descriptionStep m d _ ih => exact ih
  | skipStep m _ ih => exact ih
  | confirmStep m _ ih => exact ih
  | rentalAddressStep m a₀ _ ih => exact ih
  | rentalMmStep m mm _ ih => exact ih
  | rentalAmountStep m s a₀ _ hv _ =>
      intro a h
      simp [set_rental_amount] at h
      exact h ▸ validate_amount_pos s a₀ hv
  | backStep m _ ih =>
      intro a h
      obtain ⟨st, ctx⟩ := m
      cases st <;> simp [go_back] at h <;> exact ih a h
  | messageStep m s _ ih =>
      intro a h
      unfold message_rental_amount at h
      rcases hm : m.ctx.amount with _ | v <;> rw [hm] at h
      · rcases hv : validate_amount s with _ | w <;> rw [hv] at h
        · exact ih a h
        · simp [set_rental_amount] at h
          exact h ▸ validate_amount_pos s w hv
      · simp at h
        exact ih a h

/-- C9 witness: the text "5" passes validation with value 5, and the machine
reached by committing it as the rental amount stores a positive amount. -/
theorem amount_invariant_positive_witness :
    validate_amount "5" = some 5 ∧ 0 < (5 : ℚ) := by
  have h : validate_amount "5" = some 5 := by with_unfolding_all decide
  exact ⟨h, (amount_invariant_positive.2 (set_rental_amount ⟨.IDLE, {}⟩ 5)
    (Reachable.rentalAmountStep _ "5" 5 Reachable.idle h)) 5 rfl⟩

/-- Chronological comparability of two stored rows: vacuous unless both date
cells parse. -/
def rowLeB (r s : SheetRow) : Bool :=
  match parseDateTriple r.dateCell, parseDateTriple s.dateCell with
  | some dr, some ds => decide (pyDateLe dr ds)
  | _, _ => true

/-- The maintained ledger invariant: the parsable dates of the stored rows
appear in ascending order (rows with unparsable dates may sit anywhere). -/
def DatesSorted (rows : List SheetRow) : Prop :=
  rows.Pairwise fun r s => rowLeB r s = true

instance (rows : List SheetRow) : Decidable (DatesSorted rows) := by
  unfold DatesSorted; infer_instance

theorem findInsertIdx_le (opDate : PyDate) (rows : List SheetRow) :
    findInsertIdx opDate rows ≤ rows.length := by
  induction rows with
  | nil => simp [findInsertIdx]
  | cons r rest ih =>
      simp only [findInsertIdx, List.length_cons]
      cases hp : parseDateTriple r.dateCell with
      | none =>
          cases hk : findInsertIdx opDate rest with
          | zero => simp
          | succ k => rw [hk] at ih; simp; omega
      | some rdate =>
          by_cases hle : pyDateLe rdate opDate <;> simp [hle] <;> omega

theorem findInsertIdx_before (opDate : PyDate) (rows : List SheetRow)
    (hs : DatesSorted rows) :
    ∀ j (hj : j < rows.length) rd, j < findInsertIdx opDate rows →
      parseDateTriple (rows.get ⟨j, hj⟩).dateCell = some rd → pyDateLe rd opDate := by
  induction rows with
  | nil => intro j hj; simp at hj
  | cons r rest ih =>
      intro j hj rd hjk hparse
      have hs' : DatesSorted rest := (List.pairwise_cons.mp hs).2
      cases hp : parseDateTriple r.dateCell with
      | none =>
          simp only [findInsertIdx, hp] at hjk
          cases j with
          | zero =>
              rw [show (((r :: rest).get ⟨0, hj⟩) : SheetRow) = r from rfl, hp] at hparse
              exact absurd hparse (by simp)
          | succ j' =>
              cases hk : findInsertIdx opDate rest with
              | zero => simp only [hk] at hjk; omega
              | succ k =>
                  simp only [hk] at hjk
                  exact ih hs' j' (by simp at hj; omega) rd (by omega) hparse
      | some rdate =>
          simp only [findInsertIdx, hp] at hjk
          by_cases hle : pyDateLe rdate opDate
          · rw [if_pos hle] at hjk
            cases j with
            | zero =>
                rw [show (((r :: rest).get ⟨0, hj⟩) : SheetRow) = r from rfl, hp] at hparse
                cases hparse
                exact hle
            | succ j' =>
                exact ih hs' j' (by simp at hj; omega) rd (by omega) hparse
          · rw [if_neg hle] at hjk; omega

theorem findInsertIdx_after (opDate : PyDate) (rows : List SheetRow)
    (hs : DatesSorted rows) :
    ∀ j (hj : j < rows.length) rd, findInsertIdx opDate rows ≤ j →
      parseDateTriple (rows.get ⟨j, hj⟩).dateCell = some rd → ¬ pyDateLe rd opDate := by
  induction rows with
  | nil => intro j hj; simp at hj
  | cons r rest ih =>
      intro j hj rd hkj hparse
      have hs' : DatesSorted rest := (List.pairwise_cons.mp hs).2
      cases hp : parseDateTriple r.dateCell with
      | none =>
          simp only [findInsertIdx, hp] at hkj
          cases j with
          | zero =>
              rw [show (((r :: rest).get ⟨0, hj⟩) : SheetRow) = r from rfl, hp] at hparse
              exact absurd hparse (by simp)
          | succ j' =>
              cases hk : findInsertIdx opDate rest with
              | zero =>
                  exact ih hs' j' (by simp at hj; omega) rd (by omega) hparse
              | succ k =>
                  simp only [hk] at hkj
                  exact ih hs' j' (by simp at hj; omega) rd (by omega) hparse
      | some rdate =>
          simp only [findInsertIdx, hp] at hkj
          by_cases hle : pyDateLe rdate opDate
          · rw [if_pos hle] at hkj
            cases j with
            | zero => omega
            | succ j' =>
                exact ih hs' j' (by simp at hj; omega) rd (by omega) hparse
          · cases j with
            | zero =>
                rw [show (((r :: rest).get ⟨0, hj⟩) : SheetRow) = r from rfl, hp] at hparse
                cases hparse
                exact hle
            | succ j' =>
                intro hcontra
                have hj' : j' < rest.length := by simp at hj; omega
                have hmem : rest.get ⟨j', hj'⟩ ∈ rest := List.get_mem rest j' hj'
                have hR := (List.pairwise_cons.mp hs).1 _ hmem
                rw [rowLeB, hp] at hR
                rw [show (((r :: rest).get ⟨j' + 1, hj⟩) : SheetRow)
                    = rest.get ⟨j', hj'⟩ from rfl] at hparse
                rw [hparse] at hR
                have hRle : pyDateLe rdate rd := of_decide_eq_true hR
                exact hle (pyDateLe_trans hRle hcontra)

theorem insertRowLoop_eq (opDate : PyDate) (rows : List SheetRow) :
    ∀ i acc, insertRowLoop opDate rows i acc =
      if findInsertIdx opDate rows = 0 then acc
      else i + findInsertIdx opDate rows := by
  induction rows with
  | nil => intro i acc; simp [insertRowLoop, findInsertIdx]
  | cons r rest ih =>
      intro i acc
      cases hp : parseDateTriple r.dateCell with
      | none =>
          simp only [insertRowLoop, findInsertIdx, hp]
          rw [ih]
          cases hk : findInsertIdx opDate rest with
          | zero => simp
          | succ k => simp; try omega
      | some rdate =>
          simp only [insertRowLoop, findInsertIdx, hp]
          by_cases hle : pyDateLe rdate opDate
          · rw [if_pos hle, if_pos hle, ih]
            cases hk : findInsertIdx opDate rest with
            | zero => simp
            | succ k => simp; try omega
          · rw [if_neg hle, if_neg hle]
            simp

theorem insert_index_eq (opDate : PyDate) (rows : List SheetRow) :
    insertRowLoop opDate rows 2 2 - 2 = findInsertIdx opDate rows := by
  rw [insertRowLoop_eq]
  cases h : findInsertIdx opDate rows with
  | zero => simp
  | succ k => simp; try omega

theorem sublist_insertIdx {α : Type} (a : α) :
    ∀ (n : Nat) (l : List α), l.Sublist (l.insertIdx n a)
  | 0, l => by
      rw [List.insertIdx_zero]; exact List.sublist_cons_self a l
  | n + 1, [] => by simp [List.insertIdx_succ_nil]
  | n + 1, x :: xs => by
      rw [List.insertIdx_succ_cons]
      exact List.Sublist.cons₂ x (sublist_insertIdx a n xs)

/-- C1: for every chronologically stored ledger and new entry with a parsable
date, `add_operation` inserts the row at `findInsertIdx`, the position
immediately after the last stored row whose date is ≤ the new date: a stored
row with a parsable date sits strictly before the insertion point exactly
when its date is ≤ the new entry's date (so an entry sharing its date with
stored rows lands after all of them), rows with unparsable dates are skipped
by the scan, and the stored rows keep their relative order (the old sequence
is a sublist of the new one). -/
theorem add_operation_insert_spec (rows : List SheetRow) (od : OpData)
    (opDate : PyDate) (hparse : parseDateTriple od.date = some opDate)
    (hsorted : DatesSorted rows) :
    add_operation rows od
      = some (rows.insertIdx (findInsertIdx opDate rows) (mkOperationRow od)) ∧
    (rows.insertIdx (findInsertIdx opDate rows) (mkOperationRow od)).length
      = rows.length + 1 ∧
    (∀ j (hj : j < rows.length) rd,
        parseDateTriple (rows.get ⟨j, hj⟩).dateCell = some rd →
        (j < findInsertIdx opDate rows ↔ pyDateLe rd opDate)) ∧
    rows.Sublist (rows.insertIdx (findInsertIdx opDate rows) (mkOperationRow od)) := by
  refine ⟨?_, ?_, ?_, sublist_insertIdx _ _ _⟩
  · simp only [add_operation, hparse]
    rw [insert_index_eq]
  · exact List.length_insertIdx _ _ (findInsertIdx_le opDate rows)
  · intro j hj rd hp
    constructor
    · intro hlt
      exact findInsertIdx_before opDate rows hsorted j hj rd hlt hp
    · intro hle
      by_contra hnot
      exact findInsertIdx_after opDate rows hsorted j hj rd (by omega) hp hle

/-- C1 witness: inserting an entry dated 02.01.2026 into a ledger holding
rows dated 01.01.2026 and 03.01.2026 places it between them. -/
theorem add_operation_insert_spec_witness :
    add_operation
        [{ dateCell := "01.01.2026", incomeCell := "100", expenseCell := "" },
         { dateCell := "03.01.2026", incomeCell := "", expenseCell := "40" }]
        { date := "02.01.2026", direction := "IN", amount := 70, category := "C",
          type := "T", description := "" }
      = some
        [{ dateCell := "01.01.2026", incomeCell := "100", expenseCell := "" },
         { dateCell := "02.01.2026", incomeCell := renderAmount 70, expenseCell := "",
           categoryCell := "C", typeCell := "T" },
         { dateCell := "03.01.2026", incomeCell := "", expenseCell := "40" }] := by
  have h := (add_operation_insert_spec
    [{ dateCell := "01.01.2026", incomeCell := "100", expenseCell := "" },
     { dateCell := "03.01.2026", incomeCell := "", expenseCell := "40" }]
    { date := "02.01.2026", direction := "IN", amount := 70, category := "C",
      type := "T", description := "" }
    ⟨2026, 1, 2⟩ (by decide) (by decide)).1
  rw [h]
  with_unfolding_all decide

theorem foldl_add_sub (l : List BalanceOp) (c : ℚ) :
    l.foldl (fun b op => b + op.income - op.expense) c
      = c + (l.map fun op => op.income - op.expense).sum := by
  induction l generalizing c with
  | nil => simp
  | cons x xs ih =>
      rw [List.foldl_cons, ih, List.map_cons, List.sum_cons]
      ring

/-- C2: `get_balance` equals the plain sum of income − expense over the rows
whose stripped date cell parses (with `cellValue` turning an empty or
unparsable numeric cell into 0 without aborting); the internal re-sort by
date does not change the sum, a permutation of the stored rows (any commit
order) gives the same balance, and an empty account yields 0. -/
theorem get_balance_spec (rows : List SheetRow) :
    get_balance rows = ((balanceOps rows).map fun op => op.income - op.expense).sum ∧
    get_balance [] = 0 ∧
    ∀ rows₂, rows.Perm rows₂ → get_balance rows = get_balance rows₂ := by
  have key : ∀ rs : List SheetRow,
      get_balance rs = ((balanceOps rs).map fun op => op.income - op.expense).sum := by
    intro rs
    rw [get_balance, foldl_add_sub, zero_add]
    exact List.Perm.sum_eq (List.Perm.map _
      (List.perm_insertionSort (fun a b => pyDateLe a.date b.date) (balanceOps rs)))
  refine ⟨key rows, by rw [key []]; rfl, ?_⟩
  intro rows₂ hperm
  rw [key rows, key rows₂]
  have hops : (balanceOps rows).Perm (balanceOps rows₂) := hperm.filterMap _
  exact List.Perm.sum_eq (hops.map _)

/-- C2 witness: two rows committed in either order give the same balance. -/
theorem get_balance_spec_witness :
    get_balance
        [{ dateCell := "01.03.2026", incomeCell := "100", expenseCell := "" },
         { dateCell := "28.02.2026", incomeCell := "", expenseCell := "30" }]
      = get_balance
        [{ dateCell := "28.02.2026", incomeCell := "", expenseCell := "30" },
         { dateCell := "01.03.2026", incomeCell := "100", expenseCell := "" }] :=
  (get_balance_spec
    [{ dateCell := "01.03.2026", incomeCell := "100", expenseCell := "" },
     { dateCell := "28.02.2026", incomeCell := "", expenseCell := "30" }]).2.2
    [{ dateCell := "28.02.2026", incomeCell := "", expenseCell := "30" },
     { dateCell := "01.03.2026", incomeCell := "100", expenseCell := "" }]
    (by decide)

/-- C3 (code bug): updating the monthly summary for an IN entry against an
existing row increments the income cell but leaves the net cell stale — the
source raises UnboundLocalError on `net = new_income - new_expense` (only
the OUT branch assigns `new_expense`) and the handler swallows it — while
the claim (and the code's own intent, `# Update net`) requires
net = income − expense. The OUT update and the new-row seeding behave as
claimed. -/
theorem update_monthly_summary_in_net_stale :
    update_monthly_summary [⟨"E", "01.2026", some 100, some 40, some 60⟩] "E"
        { date := "15.01.2026", direction := "IN", amount := 50, category := "",
          type := "", description := "" }
      = [⟨"E", "01.2026", some 150, some 40, some 60⟩] ∧
    (150 : ℚ) - 40 ≠ 60 ∧
    update_monthly_summary [⟨"E", "01.2026", some 100, some 40, some 60⟩] "E"
        { date := "15.01.2026", direction := "OUT", amount := 50, category := "",
          type := "", description := "" }
      = [⟨"E", "01.2026", some 100, some 90, some 10⟩] ∧
    update_monthly_summary [] "E"
        { date := "15.01.2026", direction := "IN", amount := 50, category := "",
          type := "", description := "" }
      = [⟨"E", "01.2026", some 50, some 0, some 50⟩] := by
  refine ⟨by with_unfolding_all decide, by norm_num, by with_unfolding_all decide,
    by with_unfolding_all decide⟩

/-- C7 (code bug): an account with one parsable and one unparsable non-empty
due date gets `[]` from `get_rental_objects_for_employee` — the aware/naive
datetime comparison in the sort raises TypeError, caught by the handler —
although both rows pass the claimed filter (responsible matches, due date
non-empty), so the claimed filtered-and-sorted listing is not returned. -/
theorem get_rental_objects_mixed_dates_empty :
    get_rental_objects_for_employee
        [⟨"L", "Main St", "1", "01.01.2026", "", "E", ""⟩,
         ⟨"L", "Main St", "2", "xx", "", "E", ""⟩] "E" = [] ∧
    ([(⟨"L", "Main St", "1", "01.01.2026", "", "E", ""⟩ : RentalRow),
      ⟨"L", "Main St", "2", "xx", "", "E", ""⟩].filter fun r =>
        pyStrip r.responsibleCell == "E" && !(pyStrip r.nextDateCell == "")).length
      = 2 := by
  refine ⟨by with_unfolding_all decide, by with_unfolding_all decide⟩

/-- C6: the next due date written by a payment commit is the payment date
plus 30 days, formatted DD.MM.YYYY, computed independently of the previous
due-date cell (the new value is fixed before the table is scanned); when the
payment date does not parse the base is the processing time `now` instead;
and a payment dated 05.01.2026 yields 04.02.2026. -/
theorem update_rental_payment_date_spec :
    (∀ s now d, parse_rental_date s = some d →
      add_days_to_date s 30 now = format_rental_date (addDays d 30)) ∧
    (∀ s now, parse_rental_date s = none →
      add_days_to_date s 30 now = format_rental_date (addDays now 30)) ∧
    (∀ (table : List RentalRow) address mm pd now i row,
      table.findIdx?
          (fun r => pyStrip r.addressCell == address && pyStrip r.mmCell == mm)
        = some i →
      table[i]? = some row →
      update_rental_payment_date table address mm pd now =
        (true, table.set i { row with nextDateCell := add_days_to_date pd 30 now })) ∧
    (∀ now, add_days_to_date "05.01.2026" 30 now = "04.02.2026") := by
  have h1 : ∀ s now d, parse_rental_date s = some d →
      add_days_to_date s 30 now = format_rental_date (addDays d 30) := by
    intro s now d h
    rw [add_days_to_date, h]
  refine ⟨h1, ?_, ?_, ?_⟩
  · intro s now h
    rw [add_days_to_date, h]
  · intro table address mm pd now i row hidx hrow
    simp only [update_rental_payment_date, hidx, hrow]
  · intro now
    rw [h1 "05.01.2026" now ⟨2026, 1, 5⟩ (by decide)]
    decide

/-- C6 witness: the spec example — an obligation at ("Main St", "12") with an
empty due date; a payment committed on 05.01.2026 sets the due date to
04.02.2026 regardless of the processing time. -/
theorem update_rental_payment_date_spec_witness :
    update_rental_payment_date [⟨"L", "Main St", "12", "", "15000", "E", ""⟩]
        "Main St" "12" "05.01.2026" ⟨2026, 1, 10⟩
      = (true, [⟨"L", "Main St", "12", "04.02.2026", "15000", "E", ""⟩]) ∧
    add_days_to_date "05.01.2026" 30 ⟨2026, 1, 10⟩ = "04.02.2026" := by
  have h3 := update_rental_payment_date_spec.2.2.1
    [⟨"L", "Main St", "12", "", "15000", "E", ""⟩] "Main St" "12" "05.01.2026"
    ⟨2026, 1, 10⟩ 0 ⟨"L", "Main St", "12", "", "15000", "E", ""⟩
    (by decide) (by decide)
  have h4 := update_rental_payment_date_spec.2.2.2 ⟨2026, 1, 10⟩
  rw [h3, h4]
  exact ⟨rfl, h4⟩

theorem pyOrStr_empty_default (o : Option String) : pyOrStr o "" = o.getD "" := by
  cases o with
  | none => rfl
  | some s => by_cases h : s = "" <;> simp [pyOrStr, h]

theorem append_space_ne_empty (a b : String) : a ++ " " ++ b ≠ "" := by
  intro h
  have hlen := congrArg String.length h
  rw [String.length_append, String.length_append] at hlen
  rw [show (" " : String).length = 1 from rfl] at hlen
  rw [show ("" : String).length = 0 from rfl] at hlen
  omega

/-- C4: with the required string fields nonempty when set (as every validated
wizard input is), finalization followed by the commit fix-up fails exactly
when `direction`, `date` or `amount` is unset; on success, for a rental entry
(both rental fields truthy) the category is the reserved rental-income label
(whether it was unset, mismatched, or already the label) and the type
defaults to `"<address> <unit>"` exactly when unset or empty; otherwise
category and type default to the empty string when unset; description always
defaults to the empty string. -/
theorem save_operation_data_spec (ctx : OperationContext)
    (hdir : ctx.direction ≠ some "") (hdate : ctx.date ≠ some "") :
    (save_operation_data ctx = none ↔
      ctx.direction = none ∨ ctx.date = none ∨ ctx.amount = none) ∧
    ∀ od, save_operation_data ctx = some od →
      od.description = ctx.description.getD "" ∧
      ((truthy ctx.rental_address && truthy ctx.rental_mm) = true →
        od.category = rentalLabel ∧
        od.type = (match ctx.type with
          | some t =>
              if t = "" then
                (ctx.rental_address.getD "") ++ " " ++ (ctx.rental_mm.getD "")
              else t
          | none => (ctx.rental_address.getD "") ++ " " ++ (ctx.rental_mm.getD ""))) ∧
      ((truthy ctx.rental_address && truthy ctx.rental_mm) = false →
        od.category = ctx.category.getD "" ∧ od.type = ctx.type.getD "") := by
  constructor
  · rcases ham : ctx.amount with _ | a
    · simp [save_operation_data, get_operation_data, ham]
    · rcases hd : ctx.direction with _ | dv
      · simp [save_operation_data, get_operation_data, ham, hd, truthy]
      · rcases hdt : ctx.date with _ | tv
        · simp [save_operation_data, get_operation_data, ham, hd, hdt, truthy]
        · have hdv : dv ≠ "" := by rintro rfl; exact hdir hd
          have htv : tv ≠ "" := by rintro rfl; exact hdate hdt
          simp [save_operation_data, get_operation_data, ham, hd, hdt, truthy, hdv, htv]
          split <;> simp
  · intro od hod
    rcases ham : ctx.amount with _ | a
    · simp only [save_operation_data, get_operation_data, ham] at hod
      exact absurd hod (by simp)
    · rcases hd : ctx.direction with _ | dv
      · simp only [save_operation_data, get_operation_data, ham, hd, truthy] at hod
        exact absurd hod (by simp)
      · rcases hdt : ctx.date with _ | tv
        · simp only [save_operation_data, get_operation_data, ham, hd, hdt, truthy] at hod
          exact absurd hod (by simp)
        · have hdv : dv ≠ "" := by rintro rfl; exact hdir hd
          have htv : tv ≠ "" := by rintro rfl; exact hdate hdt
          have hA : truthy ctx.direction = true := by rw [hd]; simp [truthy, hdv]
          have hB : truthy ctx.date = true := by rw [hdt]; simp [truthy, htv]
          cases hR : (truthy ctx.rental_address && truthy ctx.rental_mm) with
          | false =>
              simp only [save_operation_data, get_operation_data, ham, hA, hB, hR,
                Bool.and_self, if_true, Bool.false_eq_true, if_false,
                Option.some.injEq] at hod
              subst hod
              refine ⟨pyOrStr_empty_default _, by simp, ?_⟩
              intro _
              exact ⟨pyOrStr_empty_default _, rfl⟩
          | true =>
              have hne := append_space_ne_empty (ctx.rental_address.getD "")
                (ctx.rental_mm.getD "")
              have hR2 : truthy ctx.rental_address = true ∧
                  truthy ctx.rental_mm = true := by simpa using hR
              rcases hty : ctx.type with _ | t
              · simp only [save_operation_data, get_operation_data, ham, hA, hB, hR,
                  hty, Bool.and_self, if_true, Bool.true_eq_false, if_false,
                  Option.some.injEq] at hod
                subst hod
                by_cases hcat : pyOrStr ctx.category rentalLabel = "" ∨
                    ¬ pyOrStr ctx.category rentalLabel = rentalLabel
                · simp [hcat, hne, pyOrStr_empty_default, hty, hR2.1, hR2.2]
                · have hlab := (not_or.mp hcat).2
                  push_neg at hlab
                  simp [hcat, hne, hlab, pyOrStr_empty_default, hty, hR2.1, hR2.2]
              · by_cases ht : t = ""
                · subst ht
                  simp only [save_operation_data, get_operation_data, ham, hA, hB, hR,
                    hty, Bool.and_self, if_true, Bool.true_eq_false, if_false,
                    Option.some.injEq] at hod
                  subst hod
                  by_cases hcat : pyOrStr ctx.category rentalLabel = "" ∨
                      ¬ pyOrStr ctx.category rentalLabel = rentalLabel
                  · simp [hcat, hne, pyOrStr_empty_default, hty, hR2.1, hR2.2]
                  · have hlab := (not_or.mp hcat).2
                    push_neg at hlab
                    simp [hcat, hne, hlab, pyOrStr_empty_default, hty, hR2.1, hR2.2]
                · simp only [save_operation_data, get_operation_data, ham, hA, hB, hR,
                    hty, Bool.and_self, if_true, Bool.true_eq_false, if_false,
                    Option.some.injEq] at hod
                  subst hod
                  by_cases hcat : pyOrStr ctx.category rentalLabel = "" ∨
                      ¬ pyOrStr ctx.category rentalLabel = rentalLabel
                  · simp [hcat, ht, pyOrStr_empty_default, hty, hR2.1, hR2.2]
                  · have hlab := (not_or.mp hcat).2
                    push_neg at hlab
                    simp [hcat, ht, hlab, pyOrStr_empty_default, hty, hR2.1, hR2.2]

/-- C4 witness: a rental context with direction, date, amount present and
category/type unset finalizes to the rental label and "Main St 12"; the same
context without a date fails. -/
theorem save_operation_data_spec_witness :
    (save_operation_data
        { direction := some "IN", date := some "05.01.2026", amount := some 100,
          rental_address := some "Main St", rental_mm := some "12" }
      = none ↔ ((some "IN" : Option String) = none ∨
        (some "05.01.2026" : Option String) = none ∨ (some (100 : ℚ) : Option ℚ) = none)) ∧
    ∀ od, save_operation_data
        { direction := some "IN", date := some "05.01.2026", amount := some 100,
          rental_address := some "Main St", rental_mm := some "12" }
      = some od → od.category = rentalLabel ∧ od.type = "Main St" ++ " " ++ "12" := by
  have h := save_operation_data_spec
    { direction := some "IN", date := some "05.01.2026", amount := some 100,
      rental_address := some "Main St", rental_mm := some "12" }
    (by simp) (by simp)
  refine ⟨h.1, ?_⟩
  intro od hod
  have h2 := h.2 od hod
  have h3 := h2.2.1 (by decide)
  exact ⟨h3.1, h3.2⟩

end AvansBot
